import Mathlib

/-!
Verification development for the Calculator repository (src/project.py).

The repository has two algorithmic parts:
* `safe_eval`: a character-screening pass followed by a restricted evaluation
  of the expression text (in the source, Python `eval` with a curated globals
  dictionary `SAFE_FUNCTIONS`);
* `ModernCalculator.on_button_click` / `ModernCalculator.toggle_sign`: the
  expression-store state machine (buffer edits, percent, equals).

Shallow embedding notes:
* Strings are Lean `String`s (lists of characters).  The Python character
  classifiers `str.isalpha` / `str.isspace` are modelled on the ASCII range,
  which is where every claim and the source's own alphabets live.
* Python numbers are modelled exactly: `int` as `ℤ`, `float` as `ℚ`
  (the specification's data model is `Number(value)` over real numbers;
  IEEE rounding is below the abstraction level of the spec and of every
  claim's inputs, all of which are exactly representable).
* The evaluation stage is modelled for the numeric-operator fragment that the
  expression grammar of the calculator exercises: numeric literals, the
  binary operators `+ - * / // % **`, unary `+`/`-`, and parentheses, with
  Python's semantics (true division always produces a float, `//` and `%`
  are floor-based, division by zero fails).  Identifier resolution is not
  part of the evaluation model; the claims that concern identifiers are
  settled at the screening stage, where the source decides them.
-/

namespace Calculator

/-- Decimal digit test on the ASCII range (codepoints 48–57). -/
def pyIsDigit (c : Char) : Bool := decide (48 ≤ c.toNat ∧ c.toNat ≤ 57)

/-- Model of Python `str.isalpha` on the ASCII range: `A`–`Z` or `a`–`z`. -/
def pyIsAlpha (c : Char) : Bool :=
  decide ((65 ≤ c.toNat ∧ c.toNat ≤ 90) ∨ (97 ≤ c.toNat ∧ c.toNat ≤ 122))

/-- Model of Python `str.isspace` on the ASCII range: space, `\t`, `\n`,
vertical tab, form feed, `\r` (codepoints 32 and 9–13). -/
def pyIsSpace (c : Char) : Bool := decide (c.toNat = 32 ∨ (9 ≤ c.toNat ∧ c.toNat ≤ 13))

/-- Model of the Python membership test `ch in s` for a character `ch` and a
string `s`, decided by code point. -/
def charIn (c : Char) (s : String) : Bool :=
  decide (c.toNat ∈ s.data.map Char.toNat)

/-- The keys of the `SAFE_FUNCTIONS` dictionary of src/project.py: the eight
allow-listed function/constant names. -/
def SAFE_FUNCTIONS : List String := ["sqrt", "sin", "cos", "tan", "pi", "e", "pow", "abs"]

/-- The literal `allowed_chars` string of `safe_eval` (src/project.py line 25). -/
def allowed_chars : String := "0123456789+-*/(). %e"

/-- The character-screening loop body of `safe_eval` (src/project.py lines
26–32), for one character: `some c` models raising `ValueError` at `c`
(an `InvalidCharacter` failure), `none` models accepting the character.
The source checks, in order: an alphabetic character not occurring in the
string `'sincotapewabsr'` raises; an alphabetic or whitespace character is
accepted; a character outside `allowed_chars` raises; otherwise accepted. -/
def screenChar (c : Char) : Option Char :=
  if pyIsAlpha c && !charIn c "sincotapewabsr" then some c
  else if pyIsAlpha c || pyIsSpace c then none
  else if !charIn c allowed_chars then some c
  else none

/-- The character-screening loop of `safe_eval`: returns the first offending
character, if any (the source raises on the first offender). -/
def screen : List Char → Option Char
  | [] => none
  | c :: rest =>
    match screenChar c with
    | some b => some b
    | none => screen rest

/-- A Python number: `int` (arbitrary precision) or `float` (modelled as an
exact rational). -/
inductive PyNum where
  | int (z : ℤ)
  | float (q : ℚ)
deriving DecidableEq

/-- The rational value of a Python number. -/
def toQ : PyNum → ℚ
  | .int z => (z : ℚ)
  | .float q => q

/-- Python `+` on numbers: `int + int` is an `int`, otherwise a `float`. -/
def pyAdd : PyNum → PyNum → PyNum
  | .int a, .int b => .int (a + b)
  | a, b => .float (toQ a + toQ b)

/-- Python `-` on numbers. -/
def pySub : PyNum → PyNum → PyNum
  | .int a, .int b => .int (a - b)
  | a, b => .float (toQ a - toQ b)

/-- Python `*` on numbers. -/
def pyMul : PyNum → PyNum → PyNum
  | .int a, .int b => .int (a * b)
  | a, b => .float (toQ a * toQ b)

/-- Python unary `-` on numbers. -/
def pyNeg : PyNum → PyNum
  | .int z => .int (-z)
  | .float q => .float (-q)

/-- Python true division `/`: always produces a float; `ZeroDivisionError`
(modelled as `none`) when the divisor is zero. -/
def pyDiv (a b : PyNum) : Option PyNum :=
  if toQ b = 0 then none else some (.float (toQ a / toQ b))

/-- Python floor division `//`: floor semantics; `int // int` is an `int`,
otherwise a `float`; fails on a zero divisor. -/
def pyFloorDiv (a b : PyNum) : Option PyNum :=
  if toQ b = 0 then none
  else
    match a, b with
    | .int x, .int y => some (.int (Int.fdiv x y))
    | _, _ => some (.float ((Rat.floor (toQ a / toQ b) : ℤ) : ℚ))

/-- Python `%` on numbers: floor-based remainder (the result takes the sign
of the divisor); fails on a zero divisor. -/
def pyMod (a b : PyNum) : Option PyNum :=
  if toQ b = 0 then none
  else
    match a, b with
    | .int x, .int y => some (.int (Int.fmod x y))
    | _, _ => some (.float (toQ a - toQ b * ((Rat.floor (toQ a / toQ b) : ℤ) : ℚ)))

/-- Python `**` on numbers: `int ** nonnegative int` is an `int`; any float
operand (or a negative exponent) produces a float; `0 ** negative` fails.
Float exponents are modelled only when they are whole numbers (a fractional
exponent produces an irrational result, outside the number model). -/
def pyPow (a b : PyNum) : Option PyNum :=
  match b with
  | .int y =>
    if 0 ≤ y then
      match a with
      | .int x => some (.int (x ^ y.toNat))
      | .float q => some (.float (q ^ y.toNat))
    else if toQ a = 0 then none
    else some (.float ((toQ a) ^ y))
  | .float qe =>
    if qe.den = 1 then
      if 0 ≤ qe.num then some (.float ((toQ a) ^ qe.num.toNat))
      else if toQ a = 0 then none
      else some (.float ((toQ a) ^ qe.num))
    else none

/-- Numeric value of a list of decimal digit characters. -/
def digitsVal (ds : List Char) : ℕ :=
  ds.foldl (fun n c => 10 * n + (c.toNat - 48)) 0

/-- Python numeric-literal recognition for a maximal run of digits and dots:
no dot gives a decimal `int` literal (leading zeros are only allowed on the
literal zero, per the Python 3 grammar); one dot gives a `float` literal
(at least one digit must be present on one side); anything else is a lexical
error. -/
def pyNumLit (ds : List Char) : Option PyNum :=
  let dots := (ds.filter (fun c => c == '.')).length
  if dots = 0 then
    if ds.isEmpty then none
    else if ds.head? = some '0' && ds.any (fun c => !(c == '0')) then none
    else some (.int (digitsVal ds))
  else if dots = 1 then
    let ip := ds.takeWhile (fun c => !(c == '.'))
    let fp := (ds.dropWhile (fun c => !(c == '.'))).drop 1
    if ip.isEmpty && fp.isEmpty then none
    else some (.float ((digitsVal ip : ℚ) + (digitsVal fp : ℚ) / (10 ^ fp.length)))
  else none

/-- Tokens of the numeric expression grammar. -/
inductive Tok where
  | num (v : PyNum)
  | plus | minus | star | slash | dstar | dslash | percentOp
  | lpar | rpar
deriving DecidableEq

/-- Tokenizer for the numeric fragment of Python expressions: skips
whitespace, recognizes the operators `+ - * / // ** %` (maximal munch for
`**` and `//`), parentheses, and numeric literals.  Any other character is a
lexical error.  `fuel` bounds the recursion (a call always consumes at least
one character, so `length + 1` suffices). -/
def tokenizeAux : ℕ → List Char → Option (List Tok)
  | _, [] => some []
  | 0, _ :: _ => none
  | fuel + 1, c :: rest =>
    if pyIsSpace c then tokenizeAux fuel rest
    else if c == '+' then (tokenizeAux fuel rest).map (Tok.plus :: ·)
    else if c == '-' then (tokenizeAux fuel rest).map (Tok.minus :: ·)
    else if c == '(' then (tokenizeAux fuel rest).map (Tok.lpar :: ·)
    else if c == ')' then (tokenizeAux fuel rest).map (Tok.rpar :: ·)
    else if c == '%' then (tokenizeAux fuel rest).map (Tok.percentOp :: ·)
    else if c == '*' then
      match rest with
      | d :: rest2 =>
        if d == '*' then (tokenizeAux fuel rest2).map (Tok.dstar :: ·)
        else (tokenizeAux fuel rest).map (Tok.star :: ·)
      | [] => (tokenizeAux fuel rest).map (Tok.star :: ·)
    else if c == '/' then
      match rest with
      | d :: rest2 =>
        if d == '/' then (tokenizeAux fuel rest2).map (Tok.dslash :: ·)
        else (tokenizeAux fuel rest).map (Tok.slash :: ·)
      | [] => (tokenizeAux fuel rest).map (Tok.slash :: ·)
    else if pyIsDigit c || c == '.' then
      let ds := (c :: rest).takeWhile (fun x => pyIsDigit x || x == '.')
      match pyNumLit ds with
      | none => none
      | some v =>
        (tokenizeAux fuel ((c :: rest).dropWhile (fun x => pyIsDigit x || x == '.'))).map
          (Tok.num v :: ·)
    else none

/-- Tokenize a character list. -/
def tokenize (cs : List Char) : Option (List Tok) :=
  tokenizeAux (cs.length + 1) cs

/-- Abstract syntax of the numeric expression fragment. -/
inductive PyExpr where
  | lit (v : PyNum)
  | neg (a : PyExpr)
  | pos (a : PyExpr)
  | add (a b : PyExpr)
  | sub (a b : PyExpr)
  | mul (a b : PyExpr)
  | div (a b : PyExpr)
  | fdiv (a b : PyExpr)
  | mod (a b : PyExpr)
  | pow (a b : PyExpr)
deriving DecidableEq

/-- Parser modes: the precedence levels of the Python expression grammar on
this fragment.  `exprL`: `+`/`-` (lowest); `termL`: `*`, `/`, `//`, `%`;
`factorL`: unary `+`/`-`; `powL`: `**` (right associative, binding its right
operand at the unary level, so `2**-3` parses); `atomL`: literals and
parenthesized expressions.  The loop modes carry the left operand of a
left-associative chain. -/
inductive PMode where
  | exprL
  | exprLoop (acc : PyExpr)
  | termL
  | termLoop (acc : PyExpr)
  | factorL
  | powL
  | atomL

/-- Recursive-descent parser over tokens, with fuel (every recursive call
decreases the fuel; parse failure is `none`). -/
def parseM : ℕ → PMode → List Tok → Option (PyExpr × List Tok)
  | 0, _, _ => none
  | fuel + 1, m, ts =>
    match m with
    | .exprL =>
      match parseM fuel .termL ts with
      | none => none
      | some (e, rest) => parseM fuel (.exprLoop e) rest
    | .exprLoop acc =>
      match ts with
      | Tok.plus :: rest =>
        match parseM fuel .termL rest with
        | none => none
        | some (e, rest2) => parseM fuel (.exprLoop (PyExpr.add acc e)) rest2
      | Tok.minus :: rest =>
        match parseM fuel .termL rest with
        | none => none
        | some (e, rest2) => parseM fuel (.exprLoop (PyExpr.sub acc e)) rest2
      | _ => some (acc, ts)
    | .termL =>
      match parseM fuel .factorL ts with
      | none => none
      | some (e, rest) => parseM fuel (.termLoop e) rest
    | .termLoop acc =>
      match ts with
      | Tok.star :: rest =>
        match parseM fuel .factorL rest with
        | none => none
        | some (e, rest2) => parseM fuel (.termLoop (PyExpr.mul acc e)) rest2
      | Tok.slash :: rest =>
        match parseM fuel .factorL rest with
        | none => none
        | some (e, rest2) => parseM fuel (.termLoop (PyExpr.div acc e)) rest2
      | Tok.dslash :: rest =>
        match parseM fuel .factorL rest with
        | none => none
        | some (e, rest2) => parseM fuel (.termLoop (PyExpr.fdiv acc e)) rest2
      | Tok.percentOp :: rest =>
        match parseM fuel .factorL rest with
        | none => none
        | some (e, rest2) => parseM fuel (.termLoop (PyExpr.mod acc e)) rest2
      | _ => some (acc, ts)
    | .factorL =>
      match ts with
      | Tok.minus :: rest =>
        match parseM fuel .factorL rest with
        | none => none
        | some (e, rest2) => some (PyExpr.neg e, rest2)
      | Tok.plus :: rest =>
        match parseM fuel .factorL rest with
        | none => none
        | some (e, rest2) => some (PyExpr.pos e, rest2)
      | _ => parseM fuel .powL ts
    | .powL =>
      match parseM fuel .atomL ts with
      | none => none
      | some (a, rest) =>
        match rest with
        | Tok.dstar :: rest2 =>
          match parseM fuel .factorL rest2 with
          | none => none
          | some (e, rest3) => some (PyExpr.pow a e, rest3)
        | _ => some (a, rest)
    | .atomL =>
      match ts with
      | Tok.num v :: rest => some (PyExpr.lit v, rest)
      | Tok.lpar :: rest =>
        match parseM fuel .exprL rest with
        | some (e, Tok.rpar :: rest2) => some (e, rest2)
        | _ => none
      | _ => none

/-- Parse a complete expression from a character list. -/
def pyParse (cs : List Char) : Option PyExpr :=
  match tokenize cs with
  | none => none
  | some ts =>
    match parseM (8 * (ts.length + 1)) .exprL ts with
    | some (e, []) => some e
    | _ => none

/-- Standard denotation of the expression AST under exact arithmetic
(`none` models the arithmetic failures: division/modulo by zero, `0` to a
negative power). -/
def denote : PyExpr → Option PyNum
  | .lit v => some v
  | .neg a => (denote a).map pyNeg
  | .pos a => denote a
  | .add a b => do pure (pyAdd (← denote a) (← denote b))
  | .sub a b => do pure (pySub (← denote a) (← denote b))
  | .mul a b => do pure (pyMul (← denote a) (← denote b))
  | .div a b => do pyDiv (← denote a) (← denote b)
  | .fdiv a b => do pyFloorDiv (← denote a) (← denote b)
  | .mod a b => do pyMod (← denote a) (← denote b)
  | .pow a b => do pyPow (← denote a) (← denote b)

/-- The failure taxonomy of the spec's evaluator contract. -/
inductive EvalError where
  | invalidCharacter (c : Char)
  | syntaxOrMathError
deriving DecidableEq

/-- The evaluation stage of `safe_eval` after screening (the restricted
`eval` call of src/project.py line 35, on the numeric fragment): any syntax
or arithmetic failure is a `SyntaxOrMathError`. -/
def evalStage (s : String) : Except EvalError PyNum :=
  match pyParse s.data with
  | none => .error .syntaxOrMathError
  | some ast =>
    match denote ast with
    | none => .error .syntaxOrMathError
    | some v => .ok v

/-- Model of `safe_eval` (src/project.py lines 19–35): character screening
first (raising `InvalidCharacter` at the first offending character), then
restricted evaluation. -/
def safe_eval (s : String) : Except EvalError PyNum :=
  match screen s.data with
  | some c => .error (.invalidCharacter c)
  | none => evalStage s

/-- Matcher for the sub-pattern `\d*\.?\d+` of `toggle_sign`'s regex: a
(possibly empty) digit run, an optional dot, then a nonempty digit run.
Equivalently, after stripping the leading digit run, either nothing remains,
or a dot followed by a nonempty digit run remains. -/
def tailMatch (cs : List Char) : Bool :=
  match cs.dropWhile pyIsDigit with
  | [] => !cs.isEmpty
  | c :: rest => c == '.' && !rest.isEmpty && rest.all pyIsDigit

/-- Matcher for the full group `-?\d*\.?\d+` of `toggle_sign`'s regex (a
`-` can only occur as the first character, since the rest of the pattern
admits only digits and one dot). -/
def numMatch : List Char → Bool
  | [] => false
  | c :: rest => if c == '-' then tailMatch rest else tailMatch (c :: rest)

/-- Model of `re.search(r'(-?\d*\.?\d+)$', s)` (src/project.py line 231):
return the start index of the leftmost position whose suffix matches the
group (the `$` anchor forces the match to extend to the end of the string),
or `none` when no position matches. -/
def reSearchEnd : List Char → Option ℕ
  | [] => none
  | c :: rest =>
    if numMatch (c :: rest) then some 0
    else (reSearchEnd rest).map (· + 1)

/-- The buffer transformation of `ModernCalculator.toggle_sign`
(src/project.py lines 228–244): locate the trailing number via the regex;
no-op when there is no match; otherwise strip a leading `-` from the matched
suffix if present, or prepend one if absent. -/
def toggleCore (cs : List Char) : List Char :=
  match reSearchEnd cs with
  | none => cs
  | some i =>
    let num := cs.drop i
    if num.head? = some '-' then cs.take i ++ num.drop 1
    else cs.take i ++ '-' :: num

/-- `toggle_sign` as a function on the expression buffer. -/
def toggle_sign (s : String) : String := ⟨toggleCore s.data⟩

/-- Models `not s.strip()` truthiness: the string is empty or whitespace. -/
def isBlank (s : String) : Bool := s.data.all pyIsSpace

/-- Decimal fraction digits of a rational `r` with `0 ≤ r < 1`, with fuel
(the expansions arising in the claims terminate well within the fuel; a
non-terminating expansion is truncated, mirroring the finite precision of
the host's float formatting). -/
def fracDigits : ℕ → ℚ → List Char
  | 0, _ => []
  | n + 1, r =>
    if r = 0 then []
    else Nat.digitChar (Rat.floor (r * 10)).toNat :: fracDigits n (r * 10 - Rat.floor (r * 10))

/-- Model of Python `str` on a float: a whole-number float prints with a
trailing `.0`; otherwise sign, integer part, dot, fraction digits. -/
def pyFloatStr (q : ℚ) : String :=
  if q.den = 1 then toString q.num ++ ".0"
  else
    let sgn := if q < 0 then "-" else ""
    let a := if q < 0 then -q else q
    sgn ++ toString (Rat.floor a) ++ "." ++ ⟨fracDigits 30 (a - Rat.floor a)⟩

/-- Model of Python `str` on a number. -/
def pyNumStr : PyNum → String
  | .int z => toString z
  | .float q => pyFloatStr q

/-- The rendering applied in the `=` branch (src/project.py lines 206–209):
a float with a whole-number value is converted to `int` before `str`, so it
prints without the trailing `.0`. -/
def eqRender : PyNum → String
  | .int z => toString z
  | .float q => if q.den = 1 then toString q.num else pyFloatStr q

/-- The state of `ModernCalculator` observable through the event interface:
the expression buffer `self.expression`, the expression line `self.expr_var`
and the result line `self.result_var`. -/
structure CalcState where
  expression : String
  expr_var : String
  result_var : String
deriving DecidableEq

/-- Model of `ModernCalculator.on_button_click` (src/project.py lines
163–226): dispatch on the key.  `AC` clears everything; `C` is backspace;
the sign-toggle key runs `toggle_sign` (which also refreshes the expression
line when a match is found); `%` evaluates the buffer, divides by 100 and mirrors the decimal
string into the buffer and both display lines (on failure: result line
`Error`, buffer kept); `=` evaluates the buffer, renders whole-number floats
as integers, shows `<buffer> =` on the expression line and restarts the
buffer from the result (on failure: result line `Error`, buffer cleared);
any other key is appended to the buffer. -/
def on_button_click (st : CalcState) (key : String) : CalcState :=
  if key = "AC" then { expression := "", expr_var := "", result_var := "" }
  else if key = "C" then
    let e := st.expression.dropRight 1
    { st with expression := e, expr_var := e }
  else if key = "+/-" then
    match reSearchEnd st.expression.data with
    | none => st
    | some _ =>
      let e := toggle_sign st.expression
      { st with expression := e, expr_var := e }
  else if key = "%" then
    if isBlank st.expression then st
    else
      match safe_eval st.expression with
      | .ok v =>
        match pyDiv v (.int 100) with
        | some w =>
          let s := pyNumStr w
          { expression := s, expr_var := s, result_var := s }
        | none => { st with result_var := "Error" }
      | .error _ => { st with result_var := "Error" }
  else if key = "=" then
    if isBlank st.expression then st
    else
      match safe_eval st.expression with
      | .ok v =>
        let s := eqRender v
        { expression := s, expr_var := st.expression ++ " =", result_var := s }
      | .error _ => { expression := "", expr_var := st.expr_var, result_var := "Error" }
  else
    let e := st.expression ++ key
    { st with expression := e, expr_var := e }

/-- Spec-side characterization (for the amended claim C3) of the characters
the screening accepts: decimal digits, the eight symbols `+ - * / ( ) . %`,
whitespace, and the twelve distinct letters of `sincotapewabsr` (the letters
of the eight allow-listed names minus `q`). -/
def amendedAccepted (c : Char) : Bool :=
  pyIsDigit c || charIn c "+-*/().%" || pyIsSpace c || charIn c "sincotapewabsr"

/-- The claim C5 alphabet: digits and the characters `+ - * / ( ) .`. -/
def arithChar (c : Char) : Bool :=
  pyIsDigit c || charIn c "+-*/()."

/-- Whether the trailing-literal match of the toggle-sign regex exists and
begins with a minus sign (the situation in which the matched minus may
really be a binary subtraction operator). -/
def matchHasMinus (s : String) : Bool :=
  match reSearchEnd s.data with
  | none => false
  | some i => (s.data.drop i).head? == some '-'

section ScreeningLemmas

/-- Code points of the letter allow-list string of the source. -/
theorem letters_codes :
    ("sincotapewabsr" : String).data.map Char.toNat =
      [115, 105, 110, 99, 111, 116, 97, 112, 101, 119, 97, 98, 115, 114] := rfl

/-- Code points of the `allowed_chars` string of the source. -/
theorem allowed_codes :
    allowed_chars.data.map Char.toNat =
      [48, 49, 50, 51, 52, 53, 54, 55, 56, 57, 43, 45, 42, 47, 40, 41, 46, 32, 37, 101] := rfl

/-- Code points of the symbol alphabet of the amended claim C3. -/
theorem syms_codes :
    ("+-*/().%" : String).data.map Char.toNat = [43, 45, 42, 47, 40, 41, 46, 37] := rfl

/-- Code points of the claim C5 symbol alphabet. -/
theorem arith_codes :
    ("+-*/()." : String).data.map Char.toNat = [43, 45, 42, 47, 40, 41, 46] := rfl

/-- Code points of the letter allow-list, list-literal form. -/
theorem letters_codes_list :
    List.map Char.toNat ['s', 'i', 'n', 'c', 'o', 't', 'a', 'p', 'e', 'w', 'a', 'b', 's', 'r'] =
      [115, 105, 110, 99, 111, 116, 97, 112, 101, 119, 97, 98, 115, 114] := rfl

/-- Code points of `allowed_chars`, list-literal form. -/
theorem allowed_codes_list :
    List.map Char.toNat
        ['0', '1', '2', '3', '4', '5', '6', '7', '8', '9', '+', '-', '*', '/', '(', ')', '.',
          ' ', '%', 'e'] =
      [48, 49, 50, 51, 52, 53, 54, 55, 56, 57, 43, 45, 42, 47, 40, 41, 46, 32, 37, 101] := rfl

/-- Code points of the amended symbol alphabet, list-literal form. -/
theorem syms_codes_list :
    List.map Char.toNat ['+', '-', '*', '/', '(', ')', '.', '%'] =
      [43, 45, 42, 47, 40, 41, 46, 37] := rfl

/-- Code points of the claim C5 symbol alphabet, list-literal form. -/
theorem arith_codes_list :
    List.map Char.toNat ['+', '-', '*', '/', '(', ')', '.'] =
      [43, 45, 42, 47, 40, 41, 46] := rfl

/-- The per-character screening accepts a character exactly when the amended
claim C3's alphabet contains it. -/
theorem screenChar_none_iff (c : Char) :
    screenChar c = none ↔ amendedAccepted c = true := by
  simp only [screenChar, amendedAccepted, charIn, pyIsAlpha, pyIsDigit, pyIsSpace,
    letters_codes, allowed_codes, syms_codes, letters_codes_list, allowed_codes_list,
    syms_codes_list, List.mem_cons, List.not_mem_nil, or_false,
    Bool.or_eq_true, Bool.and_eq_true, Bool.not_eq_true', decide_eq_true_eq,
    decide_eq_false_iff_not]
  split_ifs with h1 h2 h3 <;> simp_all <;> omega

/-- The screening loop accepts a string exactly when every character is in
the amended alphabet. -/
theorem screen_none_iff (cs : List Char) :
    screen cs = none ↔ ∀ c ∈ cs, amendedAccepted c = true := by
  induction cs with
  | nil => simp [screen]
  | cons c rest ih =>
    simp only [screen, List.forall_mem_cons]
    cases h : screenChar c with
    | some b =>
      have hc : ¬ amendedAccepted c = true := by
        rw [← screenChar_none_iff, h]; simp
      simp [hc]
    | none =>
      have hc : amendedAccepted c = true := (screenChar_none_iff c).mp h
      simp [hc, ih]

/-- Every character of the claim C5 alphabet is in the amended alphabet. -/
theorem arithChar_accepted (c : Char) (h : arithChar c = true) :
    amendedAccepted c = true := by
  simp only [arithChar, amendedAccepted, charIn, pyIsDigit, pyIsSpace,
    syms_codes, arith_codes, letters_codes, syms_codes_list, arith_codes_list,
    letters_codes_list, List.mem_cons, List.not_mem_nil, or_false,
    Bool.or_eq_true, decide_eq_true_eq] at h ⊢
  omega

/-- With an all-accepted input, `safe_eval` is the evaluation stage. -/
theorem safe_eval_of_screen_none {s : String} (h : screen s.data = none) :
    safe_eval s = evalStage s := by
  simp [safe_eval, h]

/-- With a rejected input, `safe_eval` is the `InvalidCharacter` failure at
the first offender. -/
theorem safe_eval_of_screen_some {s : String} {c : Char} (h : screen s.data = some c) :
    safe_eval s = .error (.invalidCharacter c) := by
  simp [safe_eval, h]

/-- The evaluation stage never raises `InvalidCharacter`. -/
theorem evalStage_not_invalidChar (s : String) (c : Char) :
    evalStage s ≠ .error (.invalidCharacter c) := by
  unfold evalStage
  cases hp : pyParse s.data with
  | none => simp
  | some ast => cases hd : denote ast <;> simp [hd]

/-- `safe_eval` raises `InvalidCharacter` exactly when the screening rejects. -/
theorem safe_eval_invalidChar_iff (s : String) :
    (∃ c, safe_eval s = .error (.invalidCharacter c)) ↔ screen s.data ≠ none := by
  cases h : screen s.data with
  | none =>
    simp only [safe_eval_of_screen_none h, ne_eq, not_true_eq_false, iff_false, not_exists]
    exact fun c => evalStage_not_invalidChar s c
  | some c =>
    simp only [safe_eval_of_screen_some h, ne_eq, reduceCtorEq, not_false_eq_true, iff_true]
    exact ⟨c, rfl⟩

end ScreeningLemmas

section ToggleLemmas

/-- Every character of a `\d*\.?\d+` match is a digit or the dot. -/
theorem tailMatch_chars {cs : List Char} (h : tailMatch cs = true) :
    ∀ c ∈ cs, pyIsDigit c = true ∨ c = '.' := by
  unfold tailMatch at h
  rcases hsp : cs.dropWhile pyIsDigit with _ | ⟨d, rest⟩ <;> rw [hsp] at h
  · intro c hc
    left
    have hall : cs.takeWhile pyIsDigit = cs := by
      have hs := List.takeWhile_append_dropWhile pyIsDigit cs
      rw [hsp, List.append_nil] at hs
      exact hs
    exact List.mem_takeWhile_imp (hall ▸ hc)
  · simp only [Bool.and_eq_true, beq_iff_eq, Bool.not_eq_true', List.all_eq_true] at h
    obtain ⟨⟨hd, _⟩, hall⟩ := h
    intro c hc
    have hsplit : cs.takeWhile pyIsDigit ++ (d :: rest) = cs := by
      rw [← hsp]
      exact List.takeWhile_append_dropWhile pyIsDigit cs
    rw [← hsplit] at hc
    rcases List.mem_append.mp hc with h1 | h1
    · exact Or.inl (List.mem_takeWhile_imp h1)
    · rcases List.mem_cons.mp h1 with h2 | h2
      · right; rw [h2, hd]
      · exact Or.inl (hall c h2)

/-- A `-?\d*\.?\d+` match contains no minus past its first character. -/
theorem numMatch_tail_no_minus {cs : List Char} (h : numMatch cs = true) :
    ∀ c ∈ cs.drop 1, c ≠ '-' := by
  cases cs with
  | nil => simp
  | cons c0 rest =>
    simp only [numMatch] at h
    simp only [List.drop_succ_cons, List.drop_zero]
    intro c hc hcm
    by_cases h0 : (c0 == '-') = true
    · rw [if_pos h0] at h
      rcases tailMatch_chars h c hc with hd | hd
      · rw [hcm] at hd; exact absurd hd (by decide)
      · rw [hcm] at hd; exact absurd hd (by decide)
    · rw [if_neg h0] at h
      have hc' : c ∈ c0 :: rest := List.mem_cons_of_mem c0 hc
      rcases tailMatch_chars h c hc' with hd | hd
      · rw [hcm] at hd; exact absurd hd (by decide)
      · rw [hcm] at hd; exact absurd hd (by decide)

/-- The index returned by the regex search is a match position. -/
theorem reSearchEnd_match {cs : List Char} {i : ℕ} (h : reSearchEnd cs = some i) :
    numMatch (cs.drop i) = true := by
  induction cs generalizing i with
  | nil => simp [reSearchEnd] at h
  | cons c rest ih =>
    unfold reSearchEnd at h
    by_cases hm : numMatch (c :: rest) = true
    · rw [if_pos hm] at h
      cases h
      exact hm
    · rw [if_neg hm] at h
      cases hr : reSearchEnd rest with
      | none => rw [hr] at h; simp at h
      | some j =>
        rw [hr] at h
        simp only [Option.map_some', Option.some.injEq] at h
        subst h
        simpa using ih hr

/-- The match position is inside the string. -/
theorem reSearchEnd_lt {cs : List Char} {i : ℕ} (h : reSearchEnd cs = some i) :
    i < cs.length := by
  by_contra hle
  push_neg at hle
  have hm := reSearchEnd_match h
  rw [List.drop_of_length_le hle] at hm
  simp [numMatch] at hm

/-- The regex search returns the leftmost match position. -/
theorem reSearchEnd_of_first {cs : List Char} {i : ℕ}
    (hmin : ∀ j, j < i → numMatch (cs.drop j) = false)
    (hm : numMatch (cs.drop i) = true) : reSearchEnd cs = some i := by
  induction cs generalizing i with
  | nil => rw [List.drop_nil] at hm; simp [numMatch] at hm
  | cons c rest ih =>
    unfold reSearchEnd
    cases i with
    | zero =>
      rw [List.drop_zero] at hm
      rw [if_pos hm]
    | succ j =>
      have h0 : numMatch (c :: rest) = false := by
        have := hmin 0 (Nat.succ_pos j)
        simpa using this
      rw [if_neg (by simp [h0])]
      have hres : reSearchEnd rest = some j := by
        apply ih
        · intro k hk
          have := hmin (k + 1) (by omega)
          simpa using this
        · simpa using hm
      rw [hres]
      rfl

/-- Double toggle is the identity on a buffer whose match lacks a leading
minus (the list-level core argument). -/
theorem toggleCore_toggleCore {cs : List Char}
    (h : ∀ i, reSearchEnd cs = some i → (cs.drop i).head? ≠ some '-') :
    toggleCore (toggleCore cs) = cs := by
  cases hr : reSearchEnd cs with
  | none =>
    have t1 : toggleCore cs = cs := by unfold toggleCore; rw [hr]
    rw [t1, t1]
  | some i =>
    have hhead : (cs.drop i).head? ≠ some '-' := h i hr
    have hm : numMatch (cs.drop i) = true := reSearchEnd_match hr
    have hlt : i < cs.length := reSearchEnd_lt hr
    have hlen : (cs.take i).length = i := by
      simp only [List.length_take]
      omega
    have t1 : toggleCore cs = cs.take i ++ '-' :: cs.drop i := by
      unfold toggleCore
      rw [hr]
      simp only [if_neg hhead]
    have htm : tailMatch (cs.drop i) = true := by
      cases hn : cs.drop i with
      | nil => rw [hn] at hm; simp [numMatch] at hm
      | cons c0 r =>
        rw [hn] at hm hhead
        have hc0 : (c0 == '-') = false := by
          simp only [List.head?_cons, ne_eq, Option.some.injEq] at hhead
          exact beq_eq_false_iff_ne.mpr hhead
        simp only [numMatch, hc0, Bool.false_eq_true, if_false] at hm
        exact hm
    have hmm : numMatch ('-' :: cs.drop i) = true := by
      simp only [numMatch, beq_self_eq_true, if_true]
      exact htm
    have hsearch : reSearchEnd (cs.take i ++ '-' :: cs.drop i) = some i := by
      apply reSearchEnd_of_first
      · intro j hj
        by_contra hx
        rw [Bool.not_eq_false] at hx
        have hdrop : (cs.take i ++ '-' :: cs.drop i).drop j =
            (cs.take i).drop j ++ '-' :: cs.drop i := by
          rw [List.drop_append_eq_append_drop, show j - (cs.take i).length = 0 by omega,
            List.drop_zero]
        have hne : (cs.take i).drop j ≠ [] := by
          intro hnil
          have hlenn := congrArg List.length hnil
          simp only [List.length_drop, hlen, List.length_nil] at hlenn
          omega
        obtain ⟨d, ds, hds⟩ := List.exists_cons_of_ne_nil hne
        rw [hdrop, hds, List.cons_append] at hx
        refine numMatch_tail_no_minus hx '-' ?_ rfl
        simp only [List.drop_succ_cons, List.drop_zero]
        exact List.mem_append_right ds (List.mem_cons_self '-' (cs.drop i))
      · rw [List.drop_left' hlen]
        exact hmm
    have t2 : toggleCore (cs.take i ++ '-' :: cs.drop i) = cs.take i ++ cs.drop i := by
      unfold toggleCore
      rw [hsearch]
      simp [List.drop_left' hlen, List.take_left' hlen]
    rw [t1, t2, List.take_append_drop]

end ToggleLemmas

section StoreLemmas

/-- Unfolding of the `=` branch of `on_button_click`. -/
theorem click_eq_branch (st : CalcState) :
    on_button_click st "=" =
      (if isBlank st.expression then st
       else
         match safe_eval st.expression with
         | .ok v =>
           { expression := eqRender v, expr_var := st.expression ++ " =",
             result_var := eqRender v }
         | .error _ =>
           { expression := "", expr_var := st.expr_var, result_var := "Error" }) := by
  unfold on_button_click
  rw [if_neg (by decide), if_neg (by decide), if_neg (by decide), if_neg (by decide),
    if_pos rfl]

/-- Unfolding of the `%` branch of `on_button_click`. -/
theorem click_percent_branch (st : CalcState) :
    on_button_click st "%" =
      (if isBlank st.expression then st
       else
         match safe_eval st.expression with
         | .ok v =>
           match pyDiv v (.int 100) with
           | some w =>
             { expression := pyNumStr w, expr_var := pyNumStr w, result_var := pyNumStr w }
           | none => { st with result_var := "Error" }
         | .error _ => { st with result_var := "Error" }) := by
  unfold on_button_click
  rw [if_neg (by decide), if_neg (by decide), if_neg (by decide), if_pos rfl]

/-- Dividing by the literal 100 never fails and produces the float of the
exact quotient. -/
theorem pyDiv_100 (v : PyNum) : pyDiv v (.int 100) = some (.float (toQ v / 100)) := by
  unfold pyDiv
  rw [if_neg (by norm_num [toQ])]
  norm_num [toQ]

end StoreLemmas

/-- C1: the claim that no expression string can reach any capability beyond
arithmetic and the eight allow-listed names fails on the code (code bug).
The string `"print(1)"` passes the character screening (every letter of
`print` occurs in the source's letter allow-list `'sincotapewabsr'`), yet
`print` is not one of the eight `SAFE_FUNCTIONS` names: in the source,
`eval(expr, {**SAFE_FUNCTIONS}, {})` supplies a globals dictionary without
a `__builtins__` key, so the host interpreter injects the real builtins
module and resolves `print`, executing an I/O side effect and returning a
non-number without any failure. -/
theorem c1_print_escapes_screening :
    screen "print(1)".data = none ∧ "print" ∉ SAFE_FUNCTIONS :=
  ⟨rfl, by decide⟩

/-- C2: the claim that the allow-listed functions evaluate correctly fails
on the code (code bug).  `sqrt` and `pow` are in `SAFE_FUNCTIONS`, yet the
screening rejects `"sqrt(16)"` at `'q'` (the letter allow-list
`'sincotapewabsr'` omits `q`) and `"pow(2,10)"` at `','` (the comma is not
in `allowed_chars`), so both fail as `InvalidCharacter` instead of
returning 4 and 1024.  `"sin(0)"` and `"pi"` do pass the screening. -/
theorem c2_sqrt_pow_rejected :
    safe_eval "sqrt(16)" = .error (.invalidCharacter 'q') ∧
    safe_eval "pow(2,10)" = .error (.invalidCharacter ',') ∧
    "sqrt" ∈ SAFE_FUNCTIONS ∧ "pow" ∈ SAFE_FUNCTIONS ∧
    screen "sin(0)".data = none ∧ screen "pi".data = none :=
  ⟨rfl, rfl, by decide, by decide, rfl, rfl⟩

/-- C3 counterexample: the claimed accepted alphabet is wrong in both
directions.  `'q'` is an alphabetic character occurring in the allow-listed
name `sqrt`, yet the input `"q"` fails as `InvalidCharacter`; and the tab
character is outside the claimed alphabet, yet `"\t1"` is not rejected (it
evaluates to 1). -/
theorem c3_counterexample :
    safe_eval "q" = .error (.invalidCharacter 'q') ∧ safe_eval "\t1" = .ok (.int 1) :=
  ⟨rfl, rfl⟩

/-- C3 (amended): the screening accepts exactly decimal digits, the symbols
`+ - * / ( ) . %`, whitespace characters, and the twelve letters of
`'sincotapewabsr'` (the letters of the eight allow-listed names except `q`);
every input containing any other character fails as `InvalidCharacter` (at
the first such character) before any evaluation takes place. -/
theorem c3_amended :
    (∀ s : String, screen s.data = none ↔ ∀ c ∈ s.data, amendedAccepted c = true) ∧
    (∀ (s : String) (c : Char), screen s.data = some c →
      safe_eval s = .error (.invalidCharacter c)) :=
  ⟨fun s => screen_none_iff s.data, fun _ _ h => safe_eval_of_screen_some h⟩

/-- C3 amended witness: a concrete rejected input through the amended
theorem. -/
theorem c3_amended_witness :
    safe_eval "5z" = .error (.invalidCharacter 'z') :=
  c3_amended.2 "5z" 'z' rfl

/-- C4 counterexample: double application of toggle-sign is not the
identity: on the buffer `"2-3"` the regex matches the suffix `"-5"`-style
literal `-3` (absorbing the binary minus), the first toggle produces
`"23"`, and the second produces `"-23"`. -/
theorem c4_counterexample :
    toggle_sign (toggle_sign "2-3") ≠ "2-3" := by decide

/-- C4 (amended): applying toggle-sign twice restores the buffer exactly
whenever the located trailing literal does not begin with a minus sign (in
particular whenever there is no match at all); when the match begins with a
minus — a minus that may really be a binary operator — the buffer can
change, as in the counterexample. -/
theorem c4_amended (s : String) (h : matchHasMinus s = false) :
    toggle_sign (toggle_sign s) = s := by
  obtain ⟨cs⟩ := s
  show String.mk (toggleCore (toggleCore cs)) = String.mk cs
  refine congrArg String.mk (toggleCore_toggleCore ?_)
  intro i hr hhead
  simp only [matchHasMinus, hr] at h
  rw [hhead] at h
  simp at h

/-- C4 amended witness: double toggle restores `"12"`. -/
theorem c4_amended_witness :
    matchHasMinus "12" = false ∧ toggle_sign (toggle_sign "12") = "12" :=
  ⟨by decide, c4_amended "12" (by decide)⟩

/-- C5: on strings over the arithmetic alphabet (digits and `+ - * / ( ) .`)
the screening never interferes, so `safe_eval` is exactly the evaluation
stage (parse, then exact-arithmetic denotation under standard precedence);
in particular `"2+3*4"` gives the integer 14, `"(2+3)*4"` gives 20, and
`"10/0"` fails as `SyntaxOrMathError`. -/
theorem c5_arith :
    (∀ s : String, (∀ c ∈ s.data, arithChar c = true) → safe_eval s = evalStage s) ∧
    safe_eval "2+3*4" = .ok (.int 14) ∧
    safe_eval "(2+3)*4" = .ok (.int 20) ∧
    safe_eval "10/0" = .error .syntaxOrMathError := by
  refine ⟨?_, rfl, rfl, rfl⟩
  intro s hs
  apply safe_eval_of_screen_none
  rw [screen_none_iff]
  exact fun c hc => arithChar_accepted c (hs c hc)

/-- C5 witness: the universal part applied at `"7/2"`. -/
theorem c5_arith_witness :
    safe_eval "7/2" = evalStage "7/2" :=
  c5_arith.1 "7/2" (by decide)

/-- C6: the `=` operation.  On a blank buffer it is a no-op; on a buffer
that evaluates to `v` it sets both the result line and the buffer to the
rendering of `v` (where a whole-number float renders as its integer, with
no trailing `.0`) and the expression line to the original buffer followed
by `" ="`; in particular on buffer `"5"` the result is `"5"`, the buffer
becomes `"5"` and the expression line becomes `"5 ="`. -/
theorem c6_equals :
    (∀ st : CalcState, isBlank st.expression = true → on_button_click st "=" = st) ∧
    (∀ (st : CalcState) (v : PyNum), isBlank st.expression = false →
      safe_eval st.expression = .ok v →
      on_button_click st "=" =
        { expression := eqRender v, expr_var := st.expression ++ " =",
          result_var := eqRender v }) ∧
    (∀ q : ℚ, q.den = 1 → eqRender (.float q) = toString q.num) ∧
    on_button_click ⟨"5", "", ""⟩ "=" = ⟨"5", "5 =", "5"⟩ := by
  refine ⟨?_, ?_, ?_, by with_unfolding_all rfl⟩
  · intro st hb
    rw [click_eq_branch, if_pos hb]
  · intro st v hb he
    rw [click_eq_branch, if_neg (by simp [hb]), he]
  · intro q hq
    simp [eqRender, hq]

/-- C6 witness: the success branch applied at the buffer `"10/4"`, whose
value is the non-whole float 5/2. -/
theorem c6_equals_witness :
    on_button_click ⟨"10/4", "", ""⟩ "=" =
      { expression := eqRender (.float (5 / 2)), expr_var := "10/4" ++ " =",
        result_var := eqRender (.float (5 / 2)) } :=
  c6_equals.2.1 ⟨"10/4", "", ""⟩ (.float (5 / 2)) (by decide) (by with_unfolding_all rfl)

/-- C7: the error asymmetry.  On a non-blank buffer whose evaluation fails,
`=` sets the result line to the error indicator and clears the buffer,
while `%` sets the result line to the error indicator and leaves the buffer
unchanged. -/
theorem c7_error_asymmetry (st : CalcState) (e : EvalError)
    (hb : isBlank st.expression = false)
    (he : safe_eval st.expression = .error e) :
    on_button_click st "=" =
      { expression := "", expr_var := st.expr_var, result_var := "Error" } ∧
    on_button_click st "%" =
      { expression := st.expression, expr_var := st.expr_var, result_var := "Error" } := by
  constructor
  · rw [click_eq_branch, if_neg (by simp [hb]), he]
  · rw [click_percent_branch, if_neg (by simp [hb]), he]

/-- C7 witness: the asymmetry at the failing buffer `"10/0"`. -/
theorem c7_witness :
    on_button_click ⟨"10/0", "8", "9"⟩ "=" = ⟨"", "8", "Error"⟩ ∧
    on_button_click ⟨"10/0", "8", "9"⟩ "%" = ⟨"10/0", "8", "Error"⟩ :=
  c7_error_asymmetry ⟨"10/0", "8", "9"⟩ .syntaxOrMathError (by decide) rfl

/-- C8: the `%` operation.  On a blank buffer it is a no-op; on a buffer
that evaluates to `v` it replaces the buffer with the decimal string of
`v / 100` and mirrors that string into both display lines; in particular
percent on `"50"` makes buffer and both lines `"0.5"`. -/
theorem c8_percent :
    (∀ st : CalcState, isBlank st.expression = true → on_button_click st "%" = st) ∧
    (∀ (st : CalcState) (v : PyNum), isBlank st.expression = false →
      safe_eval st.expression = .ok v →
      on_button_click st "%" =
        { expression := pyFloatStr (toQ v / 100), expr_var := pyFloatStr (toQ v / 100),
          result_var := pyFloatStr (toQ v / 100) }) ∧
    on_button_click ⟨"50", "", ""⟩ "%" = ⟨"0.5", "0.5", "0.5"⟩ := by
  refine ⟨?_, ?_, by with_unfolding_all rfl⟩
  · intro st hb
    rw [click_percent_branch, if_pos hb]
  · intro st v hb he
    rw [click_percent_branch, if_neg (by simp [hb]), he]
    dsimp only
    rw [pyDiv_100]
    rfl

/-- C8 witness: the success branch applied at the buffer `"50"`. -/
theorem c8_percent_witness :
    on_button_click ⟨"50", "X", "Y"⟩ "%" =
      { expression := pyFloatStr (toQ (PyNum.int 50) / 100),
        expr_var := pyFloatStr (toQ (PyNum.int 50) / 100),
        result_var := pyFloatStr (toQ (PyNum.int 50) / 100) } :=
  c8_percent.2.1 ⟨"50", "X", "Y"⟩ (.int 50) (by decide) rfl

/-- C9: frame effect of a failed `=`: the expression line is left unchanged
(still showing its previous text) while the buffer is cleared, so the
expression line no longer mirrors the buffer. -/
theorem c9_expr_line_preserved (st : CalcState) (e : EvalError)
    (hb : isBlank st.expression = false)
    (he : safe_eval st.expression = .error e) :
    (on_button_click st "=").expr_var = st.expr_var ∧
    (on_button_click st "=").expression = "" := by
  rw [click_eq_branch, if_neg (by simp [hb]), he]
  exact ⟨rfl, rfl⟩

/-- C9 witness: the frame effect at the failing buffer `"1/0"`. -/
theorem c9_witness :
    (on_button_click ⟨"1/0", "1/0", ""⟩ "=").expr_var = "1/0" ∧
    (on_button_click ⟨"1/0", "1/0", ""⟩ "=").expression = "" :=
  c9_expr_line_preserved ⟨"1/0", "1/0", ""⟩ .syntaxOrMathError (by decide) rfl

/-- C10: the `%` operation never applies the whole-number-to-integer
rendering: whenever the evaluated value divided by 100 is a whole number,
both the buffer and the result line get the float string with the trailing
`.0`; in particular percent on `"200"` produces `"2.0"`, not `"2"`. -/
theorem c10_percent_no_int_render :
    (∀ (st : CalcState) (v : PyNum), isBlank st.expression = false →
      safe_eval st.expression = .ok v → (toQ v / 100).den = 1 →
      (on_button_click st "%").expression = toString (toQ v / 100).num ++ ".0" ∧
      (on_button_click st "%").result_var = toString (toQ v / 100).num ++ ".0") ∧
    on_button_click ⟨"200", "", ""⟩ "%" = ⟨"2.0", "2.0", "2.0"⟩ := by
  refine ⟨?_, by with_unfolding_all rfl⟩
  intro st v hb he hden
  rw [click_percent_branch, if_neg (by simp [hb]), he]
  dsimp only
  rw [pyDiv_100]
  constructor <;> simp [pyNumStr, pyFloatStr, hden]

/-- C10 witness: the universal part applied at the buffer `"200"`. -/
theorem c10_witness :
    (on_button_click ⟨"200", "A", "B"⟩ "%").expression =
      toString (toQ (PyNum.int 200) / 100).num ++ ".0" :=
  (c10_percent_no_int_render.1 ⟨"200", "A", "B"⟩ (.int 200) (by decide) rfl
    (by with_unfolding_all rfl)).1

end Calculator
